import Mathlib

/-!
Verification of the positronic data-collection core.

Shallow embedding of `positronic/data_collection.py` (the `_Tracker`
teleoperation state machine, `_parse_buttons`, and the body of
`DataCollectionController.run`) and of the camera-connection logic of
`positronic/wire.py`.

The geometry layer (`positronic.geom`) and the messaging layer (`pimm`,
`ButtonHandler`) are part of the repository but outside the files under
analysis, so they are modelled from the specification; each such
definition is marked `Modelled from the spec:`.
-/

/-! ## Geometry: vectors, quaternions, rigid transforms -/

/-- Modelled from the spec: a 3-vector of scalars (translation component
of a pose). Scalars are modelled as exact integers; every operation used by the source is ring algebra, valid over any commutative ring, and integer scalars keep all definitions kernel-executable. -/
structure Vec3 where
  x : ℤ
  y : ℤ
  z : ℤ
deriving DecidableEq, Repr

def Vec3.zero : Vec3 := ⟨0, 0, 0⟩

def Vec3.add (a b : Vec3) : Vec3 := ⟨a.x + b.x, a.y + b.y, a.z + b.z⟩

def Vec3.neg (a : Vec3) : Vec3 := ⟨-a.x, -a.y, -a.z⟩

instance : Add Vec3 := ⟨Vec3.add⟩

instance : Neg Vec3 := ⟨Vec3.neg⟩

/-- Modelled from the spec: rotations are unit quaternions
("translation (3 scalars) + rotation (unit quaternion or equivalent)").
Components `w, x, y, z` with `w` the scalar part. -/
structure Quat where
  w : ℤ
  x : ℤ
  y : ℤ
  z : ℤ
deriving DecidableEq, Repr

/-- The identity rotation. -/
def Quat.one : Quat := ⟨1, 0, 0, 0⟩

/-- Hamilton product of quaternions (rotation composition). -/
def Quat.mul (a b : Quat) : Quat :=
  ⟨a.w * b.w - a.x * b.x - a.y * b.y - a.z * b.z,
   a.w * b.x + a.x * b.w + a.y * b.z - a.z * b.y,
   a.w * b.y - a.x * b.z + a.y * b.w + a.z * b.x,
   a.w * b.z + a.x * b.y - a.y * b.x + a.z * b.w⟩

instance : Mul Quat := ⟨Quat.mul⟩

/-- Quaternion conjugate. -/
def Quat.conj (a : Quat) : Quat := ⟨a.w, -a.x, -a.y, -a.z⟩

/-- Squared norm of a quaternion. -/
def Quat.normSq (a : Quat) : ℤ := a.w * a.w + a.x * a.x + a.y * a.y + a.z * a.z

/-- Modelled from the spec: the inverse of a rotation. Under the spec's
invariant that "rotation component [is] always normalized", the inverse
of a unit quaternion is its conjugate. -/
def Quat.inv (a : Quat) : Quat := a.conj

/-- Rotate a vector by a quaternion: the vector part of `q · (0, v) · conj q`. -/
def Quat.rotVec (q : Quat) (v : Vec3) : Vec3 :=
  let p : Quat := q.mul (Quat.mul ⟨0, v.x, v.y, v.z⟩ q.conj)
  ⟨p.x, p.y, p.z⟩

/-- Modelled from the spec: a rigid 3D transform — "translation
(3 scalars) + rotation (unit quaternion or equivalent); supports
composition ... and inversion". Mirrors `geom.Transform3D`. -/
structure Transform3D where
  translation : Vec3
  rotation : Quat
deriving DecidableEq, Repr

/-- Modelled from the spec: `geom.Transform3D()` with no arguments is the
identity transform. -/
def Transform3D.id : Transform3D := ⟨Vec3.zero, Quat.one⟩

/-- Modelled from the spec: composition `compose(a, b)` applies `a`'s
frame to `b`: rotate `b`'s translation by `a` and add `a`'s translation;
compose the rotations. -/
def Transform3D.mul (a b : Transform3D) : Transform3D :=
  ⟨a.translation + a.rotation.rotVec b.translation, a.rotation * b.rotation⟩

instance : Mul Transform3D := ⟨Transform3D.mul⟩

/-- Modelled from the spec: `inverse(a)` undoes `a`: rotation is the
inverse rotation, translation is the inverse rotation applied to the
negated translation. -/
def Transform3D.inv (a : Transform3D) : Transform3D :=
  ⟨a.rotation.inv.rotVec (-a.translation), a.rotation.inv⟩

/-! ## Quaternion algebra lemmas -/

theorem Quat.mul_def (a b : Quat) : a * b = a.mul b := rfl

theorem Quat.mul_assoc (a b c : Quat) : (a * b) * c = a * (b * c) := by
  cases a; cases b; cases c
  simp only [Quat.mul_def, Quat.mul, Quat.mk.injEq]
  refine ⟨by ring, by ring, by ring, by ring⟩

theorem Quat.one_mul (a : Quat) : Quat.one * a = a := by
  cases a
  simp only [Quat.mul_def, Quat.mul, Quat.one, Quat.mk.injEq]
  refine ⟨by ring, by ring, by ring, by ring⟩

theorem Quat.normSq_mul (a b : Quat) : (a * b).normSq = a.normSq * b.normSq := by
  cases a; cases b
  simp only [Quat.mul_def, Quat.mul, Quat.normSq]
  ring

theorem Quat.normSq_conj (a : Quat) : a.conj.normSq = a.normSq := by
  cases a
  simp only [Quat.conj, Quat.normSq]
  ring

theorem Quat.mul_conj (a : Quat) : a * a.conj = ⟨a.normSq, 0, 0, 0⟩ := by
  cases a
  simp only [Quat.mul_def, Quat.mul, Quat.conj, Quat.normSq, Quat.mk.injEq]
  refine ⟨by ring, by ring, by ring, by ring⟩

/-- For a unit quaternion, multiplying by the conjugate on the left of a
product collapses: `a * (conj a * b) = b`. -/
theorem Quat.mul_conj_cancel (a b : Quat) (h : a.normSq = 1) :
    a * (a.conj * b) = b := by
  rw [← Quat.mul_assoc, Quat.mul_conj, h]
  exact Quat.one_mul b

theorem Vec3.add_def (a b : Vec3) : a + b = a.add b := rfl

theorem Vec3.neg_def (a : Vec3) : -a = a.neg := rfl

theorem Vec3.neg_add_cancel_left (a b : Vec3) : a + (-a + b) = b := by
  cases a; cases b
  simp only [Vec3.add_def, Vec3.neg_def, Vec3.add, Vec3.neg, Vec3.mk.injEq]
  refine ⟨by ring, by ring, by ring⟩

/-! ## The teleoperation tracker (`_Tracker` in `data_collection.py`) -/

/-- State of the `_Tracker` class: the operator calibration transform
(`None` selects passthrough / UMI mode), the engagement flag (`on` in the
source; named `on'` here because Lean reserves `on` for notation), the
engage-time offset, and the last mapped controller pose `_teleop_t`. -/
structure _Tracker where
  operator_position : Option Transform3D
  on' : Bool
  _offset : Transform3D
  _teleop_t : Transform3D
deriving DecidableEq, Repr

/-- `_Tracker.__init__`: class defaults give identity `_offset` and
`_teleop_t`; the engagement flag starts as `umi_mode`. -/
def _Tracker.init (operator_position : Option Transform3D) : _Tracker :=
  { operator_position := operator_position
    on' := operator_position.isNone
    _offset := Transform3D.id
    _teleop_t := Transform3D.id }

/-- `umi_mode` property: passthrough when no operator calibration. -/
def _Tracker.umi_mode (t : _Tracker) : Bool := t.operator_position.isNone

/-- `_Tracker.turn_on`: a no-op in UMI mode; otherwise engages and sets
`_offset = Transform3D(-_teleop_t.translation + robot_pos.translation,
_teleop_t.rotation.inv * robot_pos.rotation)`. -/
def _Tracker.turn_on (t : _Tracker) (robot_pos : Transform3D) : _Tracker :=
  if t.umi_mode then t
  else
    { t with
      on' := true
      _offset :=
        ⟨-t._teleop_t.translation + robot_pos.translation,
         t._teleop_t.rotation.inv * robot_pos.rotation⟩ }

/-- `_Tracker.turn_off`: a no-op in UMI mode; otherwise disengages. -/
def _Tracker.turn_off (t : _Tracker) : _Tracker :=
  if t.umi_mode then t else { t with on' := false }

/-- `_Tracker.update`: in UMI mode returns the raw pose unchanged;
otherwise maps the raw pose through the operator calibration
(`_teleop_t = operator_position * tracker_pos * operator_position.inv`)
and returns the mapped pose combined with the stored offset. Returns the
new tracker state together with the returned pose. -/
def _Tracker.update (t : _Tracker) (tracker_pos : Transform3D) :
    _Tracker × Transform3D :=
  match t.operator_position with
  | none => (t, tracker_pos)
  | some opPos =>
    let teleop := opPos * tracker_pos * opPos.inv
    ({ t with _teleop_t := teleop },
     ⟨teleop.translation + t._offset.translation,
      teleop.rotation * t._offset.rotation⟩)

/-! ## Tracker operation sequences (for the passthrough claim) -/

/-- One externally visible tracker operation. -/
inductive TrackerOp where
  | engage (p : Transform3D)
  | disengage
  | upd (p : Transform3D)
deriving DecidableEq, Repr

/-- Apply one operation to the tracker state. -/
def applyOp (t : _Tracker) : TrackerOp → _Tracker
  | TrackerOp.engage p => t.turn_on p
  | TrackerOp.disengage => t.turn_off
  | TrackerOp.upd p => (t.update p).1

/-- Apply a sequence of operations to the tracker state. -/
def applyOps (t : _Tracker) (ops : List TrackerOp) : _Tracker :=
  ops.foldl applyOp t

theorem applyOp_umi (t : _Tracker) (h : t.operator_position = none)
    (o : TrackerOp) : applyOp t o = t := by
  cases o with
  | engage p =>
    simp [applyOp, _Tracker.turn_on, _Tracker.umi_mode, h]
  | disengage =>
    simp [applyOp, _Tracker.turn_off, _Tracker.umi_mode, h]
  | upd p =>
    simp only [applyOp, _Tracker.update, h]

theorem applyOps_umi (t : _Tracker) (h : t.operator_position = none)
    (ops : List TrackerOp) : applyOps t ops = t := by
  induction ops with
  | nil => rfl
  | cons o rest ih =>
    show applyOps (applyOp t o) rest = t
    rw [applyOp_umi t h o, ih]

/-! ## Claim theorems about the tracker -/

/-- C1: in non-passthrough mode, engaging with robot pose `P` and then
updating with the same raw controller pose observed at engage time
returns exactly `P`, because `turn_on` sets the offset translation to
`P.translation - mapped.translation` and the offset rotation to
`inverse(mapped.rotation) * P.rotation`, where `mapped` is the mapped
controller pose at engage time. -/
theorem tracker_engage_continuity (t : _Tracker) (opPos c P : Transform3D)
    (hop : t.operator_position = some opPos)
    (hn1 : opPos.rotation.normSq = 1) (hn2 : c.rotation.normSq = 1) :
    ((((t.update c).1.turn_on P).update c).2 = P ∧
      ((t.update c).1.turn_on P)._offset =
        ⟨-(opPos * c * opPos.inv).translation + P.translation,
         (opPos * c * opPos.inv).rotation.inv * P.rotation⟩) := by
  obtain ⟨o, b, off, tel⟩ := t
  simp only at hop
  subst hop
  have hnm : (opPos * c * opPos.inv).rotation.normSq = 1 := by
    show ((opPos.rotation * c.rotation) * opPos.rotation.conj).normSq = 1
    rw [Quat.normSq_mul, Quat.normSq_mul, Quat.normSq_conj, hn1, hn2]
    ring
  constructor
  · show (⟨(opPos * c * opPos.inv).translation +
        (-(opPos * c * opPos.inv).translation + P.translation),
        (opPos * c * opPos.inv).rotation *
        ((opPos * c * opPos.inv).rotation.conj * P.rotation)⟩ : Transform3D) = P
    rw [Vec3.neg_add_cancel_left, Quat.mul_conj_cancel _ _ hnm]
  · rfl

/-- C5: with a null operator calibration (passthrough / UMI mode), every
`update(pose)` returns `pose` unchanged and leaves the state unchanged,
`turn_on` and `turn_off` are no-ops, and a tracker constructed in this
mode is engaged from construction and stays engaged under any sequence
of operations. -/
theorem tracker_umi_passthrough (t : _Tracker) (h : t.operator_position = none)
    (p P : Transform3D) (ops : List TrackerOp) :
    ((t.update p).2 = p ∧ (t.update p).1 = t ∧ t.turn_on P = t ∧
      t.turn_off = t ∧ (_Tracker.init none).on' = true ∧
      (applyOps (_Tracker.init none) ops).on' = true) := by
  refine ⟨?_, ?_, ?_, ?_, rfl, ?_⟩
  · simp only [_Tracker.update, h]
  · simp only [_Tracker.update, h]
  · simp [_Tracker.turn_on, _Tracker.umi_mode, h]
  · simp [_Tracker.turn_off, _Tracker.umi_mode, h]
  · rw [applyOps_umi _ rfl ops]
    rfl

/-- C8: engaging twice with the same robot pose and no intervening
update leaves the tracker in the same state as a single engage, so the
following update produces the same target pose. -/
theorem tracker_engage_idempotent (t : _Tracker) (P c : Transform3D)
    (h : t.umi_mode = false) :
    ((t.turn_on P).turn_on P = t.turn_on P ∧
      ((t.turn_on P).turn_on P).update c = (t.turn_on P).update c) := by
  have h1 : (t.turn_on P).turn_on P = t.turn_on P := by
    obtain ⟨o, b, off, tel⟩ := t
    cases o with
    | none => simp [_Tracker.umi_mode] at h
    | some v => rfl
  exact ⟨h1, by rw [h1]⟩

theorem Vec3.neg_zero_add (a : Vec3) : -Vec3.zero + a = a := by
  cases a
  simp only [Vec3.zero, Vec3.add_def, Vec3.neg_def, Vec3.add, Vec3.neg, Vec3.mk.injEq]
  refine ⟨by ring, by ring, by ring⟩

theorem Quat.one_conj_mul (a : Quat) : Quat.one.conj * a = a := by
  cases a
  simp only [Quat.one, Quat.conj, Quat.mul_def, Quat.mul, Quat.mk.injEq]
  refine ⟨by ring, by ring, by ring, by ring⟩

/-- C10: a tracker constructed with a non-null operator calibration
starts disengaged with identity offset and identity last-mapped pose, so
an engage before any update computes the offset against the identity
mapped pose: offset translation = P.translation and offset rotation =
P.rotation. -/
theorem tracker_init_disengaged (opPos P : Transform3D) :
    ((_Tracker.init (some opPos)).on' = false ∧
      (_Tracker.init (some opPos))._offset = Transform3D.id ∧
      (_Tracker.init (some opPos))._teleop_t = Transform3D.id ∧
      ((_Tracker.init (some opPos)).turn_on P)._offset.translation = P.translation ∧
      ((_Tracker.init (some opPos)).turn_on P)._offset.rotation = P.rotation) := by
  refine ⟨rfl, rfl, rfl, ?_, ?_⟩
  · show -Vec3.zero + P.translation = P.translation
    exact Vec3.neg_zero_add P.translation
  · show Quat.one.conj * P.rotation = P.rotation
    exact Quat.one_conj_mul P.rotation

/-! ## Concrete values for witnesses -/

def opW : Transform3D := ⟨⟨1, 0, 0⟩, ⟨0, 0, 1, 0⟩⟩

def cW : Transform3D := ⟨⟨2, 3, 4⟩, ⟨0, 1, 0, 0⟩⟩

def PW : Transform3D := ⟨⟨5, -1, 2⟩, ⟨0, 0, 0, 1⟩⟩

def tW : _Tracker := _Tracker.init (some opW)

def tUmi : _Tracker := _Tracker.init none

/-- Witness for C1 at concrete unit-rotation inputs. -/
theorem tracker_engage_continuity_witness :
    ((((tW.update cW).1.turn_on PW).update cW).2 = PW ∧
      ((tW.update cW).1.turn_on PW)._offset =
        ⟨-(opW * cW * opW.inv).translation + PW.translation,
         (opW * cW * opW.inv).rotation.inv * PW.rotation⟩) :=
  tracker_engage_continuity tW opW cW PW rfl (by decide) (by decide)

/-- Witness for C5 at concrete inputs. -/
theorem tracker_umi_passthrough_witness :
    ((tUmi.update cW).2 = cW ∧ (tUmi.update cW).1 = tUmi ∧
      tUmi.turn_on PW = tUmi ∧ tUmi.turn_off = tUmi ∧
      (_Tracker.init none).on' = true ∧
      (applyOps (_Tracker.init none)
        [TrackerOp.disengage, TrackerOp.upd cW, TrackerOp.engage PW]).on' = true) :=
  tracker_umi_passthrough tUmi rfl cW PW
    [TrackerOp.disengage, TrackerOp.upd cW, TrackerOp.engage PW]

/-- Witness for C8 at concrete inputs. -/
theorem tracker_engage_idempotent_witness :
    ((tW.turn_on PW).turn_on PW = tW.turn_on PW ∧
      ((tW.turn_on PW).turn_on PW).update cW = (tW.turn_on PW).update cW) :=
  tracker_engage_idempotent tW PW cW (by decide)

/-! ## Button handling (`ButtonHandler` is modelled from the spec;
`_parse_buttons` is embedded from `data_collection.py`) -/

def leftSide : String := "left"

def rightSide : String := "right"

def rightA : String := "right_A"

def rightB : String := "right_B"

def rightStick : String := "right_stick"

def rightTrigger : String := "right_trigger"

def start_wav_path : String := "positronic/assets/sounds/recording-has-started.wav"

def end_wav_path : String := "positronic/assets/sounds/recording-has-stopped.wav"

def abort_wav_path : String := "positronic/assets/sounds/recording-has-been-aborted.wav"

/-- Modelled from the spec: the button edge detector's state — the
last-seen value per named button and the rising edge computed at the
most recent update. Association lists, first binding wins. -/
structure ButtonHandler where
  vals : List (String × ℤ)
  edges : List (String × Bool)
deriving DecidableEq, Repr

def ButtonHandler.initState : ButtonHandler := ⟨[], []⟩

def lookupVal (l : List (String × ℤ)) (n : String) : ℤ :=
  match l.find? (fun p => p.1 == n) with
  | some p => p.2
  | none => 0

def lookupEdge (l : List (String × Bool)) (n : String) : Bool :=
  match l.find? (fun p => p.1 == n) with
  | some p => p.2
  | none => false

/-- Modelled from the spec: `update_buttons` stores the new values and
computes the rising edge per updated name — a button counts as pressed
when its raw value is nonzero, and the edge fires exactly when the
previous value was zero and the new one is nonzero (§4.2: "true exactly
once per press, on the tick the value transitions false→true"). -/
def ButtonHandler.update_buttons (bh : ButtonHandler)
    (mapping : List (String × ℤ)) : ButtonHandler :=
  { vals := mapping ++ bh.vals
    edges :=
      mapping.map
        (fun p => (p.1, decide (lookupVal bh.vals p.1 = 0) && decide (p.2 ≠ 0))) ++
      bh.edges }

/-- Modelled from the spec: `justPressed(name)` — the rising edge from
the most recent update. -/
def ButtonHandler.just_pressed (bh : ButtonHandler) (n : String) : Bool :=
  lookupEdge bh.edges n

/-- Modelled from the spec: `value(name)` for continuous controls. -/
def ButtonHandler.get_value (bh : ButtonHandler) (n : String) : ℤ :=
  lookupVal bh.vals n

/-- The raw per-tick button frame: per side, an optional array of analog
values (absent side = not connected). -/
structure RawButtons where
  left : Option (List ℤ)
  right : Option (List ℤ)
deriving DecidableEq, Repr

/-- The name/index mapping built by `_parse_buttons` for one side:
`{side}_A = buttons[4]`, `{side}_B = buttons[5]`,
`{side}_trigger = buttons[0]`, `{side}_thumb = buttons[1]`,
`{side}_stick = buttons[3]`. Out-of-range indices default to 0 (the
source would raise; all claims use full-length arrays). -/
def buttonMapping (side : String) (arr : List ℤ) : List (String × ℤ) :=
  [(side ++ "_A", arr.getD 4 0), (side ++ "_B", arr.getD 5 0),
   (side ++ "_trigger", arr.getD 0 0), (side ++ "_thumb", arr.getD 1 0),
   (side ++ "_stick", arr.getD 3 0)]

/-- `_parse_buttons`: for each of `left`, `right` in order, skip an
absent side, otherwise feed the side's named mapping to the handler. -/
def _parse_buttons (buttons : RawButtons) (bh : ButtonHandler) : ButtonHandler :=
  let bh1 :=
    match buttons.left with
    | none => bh
    | some arr => bh.update_buttons (buttonMapping leftSide arr)
  match buttons.right with
  | none => bh1
  | some arr => bh1.update_buttons (buttonMapping rightSide arr)

/-! ## Command messages -/

/-- Recorder command kinds (`DsWriterCommandType`). -/
inductive DsWriterCommandType where
  | START_EPISODE
  | STOP_EPISODE
  | ABORT
deriving DecidableEq, Repr

/-- Episode metadata: an open key/value mapping. -/
abbrev EpisodeMeta := List (String × String)

/-- A recorder command: kind plus metadata (`DsWriterCommand`). -/
structure DsWriterCommand where
  op : DsWriterCommandType
  meta : EpisodeMeta
deriving DecidableEq, Repr

/-- `DsWriterCommand.ABORT()`: an abort command with empty metadata. -/
def DsWriterCommand.ABORT : DsWriterCommand := ⟨DsWriterCommandType.ABORT, []⟩

/-- Robot commands emitted by the loop (`roboarm.command`). -/
inductive RobotCommand where
  | Reset
  | CartesianPosition (pose : Transform3D)
deriving DecidableEq, Repr

/-! ## The control-loop tick (`DataCollectionController.run` body) -/

/-- The loop-local mutable state of `run`: the tracker, the button
handler, and the `recording` flag. -/
structure LoopState where
  tracker : _Tracker
  button_handler : ButtonHandler
  recording : Bool
deriving DecidableEq, Repr

/-- The state at loop entry: fresh tracker from the operator position,
fresh button handler, not recording. -/
def LoopState.init (operator_position : Option Transform3D) : LoopState :=
  ⟨_Tracker.init operator_position, ButtonHandler.initState, false⟩

/-- What one tick reads. `buttons = none` models
`buttons_receiver.value` raising `NoValueException` (never received);
`robot_ee_pose = none` models `robot_state.value` raising;
`controller_right = some p` models `cp_msg.updated` with the right
controller pose `p`. -/
structure TickInput where
  buttons : Option RawButtons
  robot_ee_pose : Option Transform3D
  controller_right : Option Transform3D
deriving DecidableEq, Repr

/-- Everything one tick emits, per output channel, in emission order. -/
structure TickOutput where
  ds_agent_commands : List DsWriterCommand
  sound : List String
  robot_commands : List RobotCommand
  target_grip : List ℤ
deriving DecidableEq, Repr

def TickOutput.empty : TickOutput := ⟨[], [], [], []⟩

/-- Lines 146–151 of the source: emit the `right_trigger` analog value
on `target_grip`, then read the controller positions; on a fresh value,
run the tracker update and emit a `CartesianPosition` command only when
the tracker is engaged. -/
def finishTick (tracker : _Tracker) (bh : ButtonHandler) (recording : Bool)
    (inp : TickInput) (out : TickOutput) : LoopState × TickOutput :=
  let out1 :=
    { out with target_grip := out.target_grip ++ [bh.get_value rightTrigger] }
  match inp.controller_right with
  | none => (⟨tracker, bh, recording⟩, out1)
  | some cp =>
    let r := tracker.update cp
    let out2 :=
      if r.1.on' then
        { out1 with
          robot_commands := out1.robot_commands ++ [RobotCommand.CartesianPosition r.2] }
      else out1
    (⟨r.1, bh, recording⟩, out2)

/-- One tick of `DataCollectionController.run`. An unavailable button
frame raises `NoValueException`, which the `except` clause turns into a
sleep-and-continue: no state change, no emissions. Otherwise the parsed
buttons drive the `if`/`elif` chain (record toggle, then tracking
toggle, then reset), and the tick finishes with the grip emission and
the controller-pose processing. An unavailable robot state inside the
engage branch raises mid-tick: the button handler has already been
updated, but nothing is emitted. -/
def step (metadata_getter : EpisodeMeta) (s : LoopState) (inp : TickInput) :
    LoopState × TickOutput :=
  match inp.buttons with
  | none => (s, TickOutput.empty)
  | some raw =>
    let bh := _parse_buttons raw s.button_handler
    if bh.just_pressed rightB then
      let op :=
        if !s.recording then DsWriterCommandType.START_EPISODE
        else DsWriterCommandType.STOP_EPISODE
      let meta := if op = DsWriterCommandType.START_EPISODE then metadata_getter else []
      let out :=
        { TickOutput.empty with
          ds_agent_commands := [⟨op, meta⟩]
          sound := [if !s.recording then start_wav_path else end_wav_path] }
      finishTick s.tracker bh (!s.recording) inp out
    else if bh.just_pressed rightA then
      if s.tracker.on' then
        finishTick s.tracker.turn_off bh s.recording inp TickOutput.empty
      else
        match inp.robot_ee_pose with
        | none => (⟨s.tracker, bh, s.recording⟩, TickOutput.empty)
        | some ee => finishTick (s.tracker.turn_on ee) bh s.recording inp TickOutput.empty
    else if bh.just_pressed rightStick && !s.tracker.umi_mode then
      let out1 :=
        if s.recording then
          { TickOutput.empty with
            ds_agent_commands := [DsWriterCommand.ABORT]
            sound := [abort_wav_path] }
        else TickOutput.empty
      let out2 := { out1 with robot_commands := out1.robot_commands ++ [RobotCommand.Reset] }
      finishTick s.tracker.turn_off bh false inp out2
    else
      finishTick s.tracker bh s.recording inp TickOutput.empty

/-- Several ticks of the loop, accumulating the recorder commands. -/
def runTicks (metadata_getter : EpisodeMeta) (s : LoopState) :
    List TickInput → LoopState × List DsWriterCommand
  | [] => (s, [])
  | i :: rest =>
    let r := step metadata_getter s i
    let rr := runTicks metadata_getter r.1 rest
    (rr.1, r.2.ds_agent_commands ++ rr.2)

/-! ## Helper lemmas about `finishTick` and `step` -/

theorem finishTick_ds (t : _Tracker) (bh : ButtonHandler) (r : Bool)
    (inp : TickInput) (out : TickOutput) :
    (finishTick t bh r inp out).2.ds_agent_commands = out.ds_agent_commands := by
  unfold finishTick
  cases inp.controller_right with
  | none => rfl
  | some cp =>
    dsimp only
    split <;> rfl

theorem finishTick_sound (t : _Tracker) (bh : ButtonHandler) (r : Bool)
    (inp : TickInput) (out : TickOutput) :
    (finishTick t bh r inp out).2.sound = out.sound := by
  unfold finishTick
  cases inp.controller_right with
  | none => rfl
  | some cp =>
    dsimp only
    split <;> rfl

theorem finishTick_recording (t : _Tracker) (bh : ButtonHandler) (r : Bool)
    (inp : TickInput) (out : TickOutput) :
    (finishTick t bh r inp out).1.recording = r := by
  unfold finishTick
  cases inp.controller_right with
  | none => rfl
  | some cp => rfl

theorem finishTick_grip (t : _Tracker) (bh : ButtonHandler) (r : Bool)
    (inp : TickInput) (out : TickOutput) :
    (finishTick t bh r inp out).2.target_grip =
      out.target_grip ++ [bh.get_value rightTrigger] := by
  unfold finishTick
  cases inp.controller_right with
  | none => rfl
  | some cp =>
    dsimp only
    split <;> rfl

theorem update_on (t : _Tracker) (cp : Transform3D) :
    (t.update cp).1.on' = t.on' := by
  obtain ⟨o, b, off, tel⟩ := t
  cases o <;> rfl

theorem update_offset (t : _Tracker) (cp : Transform3D) :
    (t.update cp).1._offset = t._offset := by
  obtain ⟨o, b, off, tel⟩ := t
  cases o <;> rfl

theorem update_umi (t : _Tracker) (cp : Transform3D) :
    (t.update cp).1.umi_mode = t.umi_mode := by
  obtain ⟨o, b, off, tel⟩ := t
  cases o <;> rfl

theorem finishTick_tracker_on (t : _Tracker) (bh : ButtonHandler) (r : Bool)
    (inp : TickInput) (out : TickOutput) :
    (finishTick t bh r inp out).1.tracker.on' = t.on' := by
  unfold finishTick
  cases inp.controller_right with
  | none => rfl
  | some cp =>
    dsimp only
    exact update_on t cp

theorem finishTick_tracker_offset (t : _Tracker) (bh : ButtonHandler) (r : Bool)
    (inp : TickInput) (out : TickOutput) :
    (finishTick t bh r inp out).1.tracker._offset = t._offset := by
  unfold finishTick
  cases inp.controller_right with
  | none => rfl
  | some cp =>
    dsimp only
    exact update_offset t cp

theorem finishTick_robot_of_not_on (t : _Tracker) (bh : ButtonHandler) (r : Bool)
    (inp : TickInput) (out : TickOutput) (h : t.on' = false) :
    (finishTick t bh r inp out).2.robot_commands = out.robot_commands := by
  unfold finishTick
  cases inp.controller_right with
  | none => rfl
  | some cp =>
    dsimp only
    rw [update_on, h]
    rfl

theorem finishTick_cart_mem (t : _Tracker) (bh : ButtonHandler) (r : Bool)
    (inp : TickInput) (out : TickOutput) (p : Transform3D)
    (h : RobotCommand.CartesianPosition p ∈ (finishTick t bh r inp out).2.robot_commands) :
    RobotCommand.CartesianPosition p ∈ out.robot_commands ∨ t.on' = true := by
  unfold finishTick at h
  cases hc : inp.controller_right with
  | none =>
    rw [hc] at h
    exact Or.inl h
  | some cp =>
    rw [hc] at h
    dsimp only at h
    by_cases hon : (t.update cp).1.on' = true
    · rw [update_on] at hon
      exact Or.inr hon
    · rw [if_neg hon] at h
      exact Or.inl h

/-! ## Claim theorems about the control loop -/

/-- C6: on a record-toggle edge, if idle, a `START_EPISODE` command
carrying the metadata snapshot is emitted, the "recording started" cue
is triggered and the state becomes recording; if recording, a
`STOP_EPISODE` command is emitted, the "recording stopped" cue is
triggered and the state becomes idle. -/
theorem loop_record_toggle (mg : EpisodeMeta) (s : LoopState) (inp : TickInput)
    (raw : RawButtons) (hb : inp.buttons = some raw)
    (hB : (_parse_buttons raw s.button_handler).just_pressed rightB = true) :
    ((s.recording = false →
        (step mg s inp).2.ds_agent_commands =
          [⟨DsWriterCommandType.START_EPISODE, mg⟩] ∧
        (step mg s inp).2.sound = [start_wav_path] ∧
        (step mg s inp).1.recording = true) ∧
      (s.recording = true →
        (step mg s inp).2.ds_agent_commands =
          [⟨DsWriterCommandType.STOP_EPISODE, []⟩] ∧
        (step mg s inp).2.sound = [end_wav_path] ∧
        (step mg s inp).1.recording = false)) := by
  cases hr : s.recording with
  | false =>
    refine ⟨fun _ => ?_, fun hc => by simp [hr] at hc⟩
    simp [step, hb, hB, hr, finishTick_ds, finishTick_sound, finishTick_recording]
  | true =>
    refine ⟨fun hc => by simp [hr] at hc, fun _ => ?_⟩
    simp [step, hb, hB, hr, finishTick_ds, finishTick_sound, finishTick_recording]

/-! ## Concrete loop fixtures -/

def s0W : LoopState := LoopState.init (some opW)

def rbBW : RawButtons := ⟨none, some [0, 0, 0, 0, 0, 1]⟩

def tickBW : TickInput := ⟨some rbBW, none, none⟩

def rbTrigW : RawButtons := ⟨none, some [1, 0, 0, 0, 0, 0]⟩

def tickGripW : TickInput := ⟨some rbTrigW, none, some cW⟩

/-- Witness for C6: from idle, a record-toggle edge emits
`START_EPISODE` with the metadata snapshot, plays the started cue, and
flips to recording. -/
theorem loop_record_toggle_witness :
    ((step [] s0W tickBW).2.ds_agent_commands =
        [⟨DsWriterCommandType.START_EPISODE, ([] : EpisodeMeta)⟩] ∧
      (step [] s0W tickBW).2.sound = [start_wav_path] ∧
      (step [] s0W tickBW).1.recording = true) :=
  (loop_record_toggle [] s0W tickBW rbBW rfl (by decide)).1 rfl

/-- C2 counterexample: on a tick where the button frame has never been
received (`buttons_receiver.value` raises `NoValueException`), no grip
target is emitted and the tick does not proceed: the whole body is
skipped — no emissions at all and no state change — even though a fresh
controller pose and a robot state are available. -/
theorem loop_grip_skipped_counterexample :
    ((step [] s0W ⟨none, some PW, some cW⟩).2.target_grip = [] ∧
      (step [] s0W ⟨none, some PW, some cW⟩).2 = TickOutput.empty ∧
      (step [] s0W ⟨none, some PW, some cW⟩).1 = s0W) := by
  exact ⟨rfl, rfl, rfl⟩

/-- C2 (amended): the continuous grip target — the analog right-trigger
value — is emitted exactly once on every tick on which the button frame
is available and no `NoValueException` is raised mid-tick (the only
mid-tick raise is reading the robot state when an engage edge fires
while disengaged), regardless of whether a fresh controller pose
arrived and regardless of recording state; when the button frame is
unavailable, the tick body is skipped entirely (no emissions, no state
change) and the loop sleeps and continues — it is not an error. -/
theorem loop_grip_target (mg : EpisodeMeta) (s : LoopState) (inp : TickInput)
    (raw : RawButtons) (hb : inp.buttons = some raw)
    (hexc : ¬((_parse_buttons raw s.button_handler).just_pressed rightB = false ∧
        (_parse_buttons raw s.button_handler).just_pressed rightA = true ∧
        s.tracker.on' = false ∧ inp.robot_ee_pose = none)) :
    ((step mg s inp).2.target_grip =
        [(_parse_buttons raw s.button_handler).get_value rightTrigger] ∧
      ∀ re cr : Option Transform3D,
        step mg s ⟨none, re, cr⟩ = (s, TickOutput.empty)) := by
  constructor
  · by_cases hB : (_parse_buttons raw s.button_handler).just_pressed rightB = true
    · simp [step, hb, hB, finishTick_grip, TickOutput.empty]
    · have hBf : (_parse_buttons raw s.button_handler).just_pressed rightB = false := by
        simpa using hB
      by_cases hA : (_parse_buttons raw s.button_handler).just_pressed rightA = true
      · by_cases hon : s.tracker.on' = true
        · simp [step, hb, hBf, hA, hon, finishTick_grip, TickOutput.empty]
        · have honf : s.tracker.on' = false := by simpa using hon
          cases hre : inp.robot_ee_pose with
          | none => exact absurd ⟨hBf, hA, honf, hre⟩ hexc
          | some ee => simp [step, hb, hBf, hA, honf, hre, finishTick_grip, TickOutput.empty]
      · have hAf : (_parse_buttons raw s.button_handler).just_pressed rightA = false := by
          simpa using hA
        cases hS : ((_parse_buttons raw s.button_handler).just_pressed rightStick
            && !s.tracker.umi_mode) with
        | true =>
          cases hrec : s.recording with
          | true => simp [step, hb, hBf, hAf, hS, hrec, finishTick_grip, TickOutput.empty]
          | false => simp [step, hb, hBf, hAf, hS, hrec, finishTick_grip, TickOutput.empty]
        | false => simp [step, hb, hBf, hAf, hS, finishTick_grip, TickOutput.empty]
  · intro re cr
    rfl

/-- Witness for the amended C2: a tick with the trigger held and a fresh
controller pose emits exactly the trigger value, and button-frame
unavailability skips the tick. -/
theorem loop_grip_target_witness :
    ((step [] s0W tickGripW).2.target_grip =
        [(_parse_buttons rbTrigW s0W.button_handler).get_value rightTrigger] ∧
      ∀ re cr : Option Transform3D,
        step [] s0W ⟨none, re, cr⟩ = (s0W, TickOutput.empty)) :=
  loop_grip_target [] s0W tickGripW rbTrigW rfl (by decide)

/-! ## Branch equations for `step` -/

theorem turn_on_on (t : _Tracker) (p : Transform3D) (h : t.umi_mode = false) :
    (t.turn_on p).on' = true := by
  unfold _Tracker.turn_on
  rw [h]
  rfl

theorem turn_off_on (t : _Tracker) (h : t.umi_mode = false) :
    t.turn_off.on' = false := by
  unfold _Tracker.turn_off
  rw [h]
  rfl

theorem step_eq_B (mg : EpisodeMeta) (s : LoopState) (inp : TickInput)
    (raw : RawButtons) (hb : inp.buttons = some raw)
    (hB : (_parse_buttons raw s.button_handler).just_pressed rightB = true) :
    step mg s inp =
      finishTick s.tracker (_parse_buttons raw s.button_handler) (!s.recording) inp
        ⟨[⟨if !s.recording then DsWriterCommandType.START_EPISODE
            else DsWriterCommandType.STOP_EPISODE,
           if s.recording then [] else mg⟩],
         [if !s.recording then start_wav_path else end_wav_path], [], []⟩ := by
  cases hrec : s.recording with
  | false => simp [step, hb, hB, hrec, TickOutput.empty]
  | true => simp [step, hb, hB, hrec, TickOutput.empty]

theorem step_eq_A_on (mg : EpisodeMeta) (s : LoopState) (inp : TickInput)
    (raw : RawButtons) (hb : inp.buttons = some raw)
    (hBf : (_parse_buttons raw s.button_handler).just_pressed rightB = false)
    (hA : (_parse_buttons raw s.button_handler).just_pressed rightA = true)
    (hon : s.tracker.on' = true) :
    step mg s inp =
      finishTick s.tracker.turn_off (_parse_buttons raw s.button_handler)
        s.recording inp TickOutput.empty := by
  simp [step, hb, hBf, hA, hon]

theorem step_eq_A_off (mg : EpisodeMeta) (s : LoopState) (inp : TickInput)
    (raw : RawButtons) (ee : Transform3D) (hb : inp.buttons = some raw)
    (hBf : (_parse_buttons raw s.button_handler).just_pressed rightB = false)
    (hA : (_parse_buttons raw s.button_handler).just_pressed rightA = true)
    (hon : s.tracker.on' = false) (hre : inp.robot_ee_pose = some ee) :
    step mg s inp =
      finishTick (s.tracker.turn_on ee) (_parse_buttons raw s.button_handler)
        s.recording inp TickOutput.empty := by
  simp [step, hb, hBf, hA, hon, hre]

theorem step_eq_A_exc (mg : EpisodeMeta) (s : LoopState) (inp : TickInput)
    (raw : RawButtons) (hb : inp.buttons = some raw)
    (hBf : (_parse_buttons raw s.button_handler).just_pressed rightB = false)
    (hA : (_parse_buttons raw s.button_handler).just_pressed rightA = true)
    (hon : s.tracker.on' = false) (hre : inp.robot_ee_pose = none) :
    step mg s inp =
      (⟨s.tracker, _parse_buttons raw s.button_handler, s.recording⟩,
        TickOutput.empty) := by
  simp [step, hb, hBf, hA, hon, hre]

theorem step_eq_stick (mg : EpisodeMeta) (s : LoopState) (inp : TickInput)
    (raw : RawButtons) (hb : inp.buttons = some raw)
    (hBf : (_parse_buttons raw s.button_handler).just_pressed rightB = false)
    (hAf : (_parse_buttons raw s.button_handler).just_pressed rightA = false)
    (hS : (_parse_buttons raw s.button_handler).just_pressed rightStick = true)
    (humi : s.tracker.umi_mode = false) :
    step mg s inp =
      finishTick s.tracker.turn_off (_parse_buttons raw s.button_handler)
        false inp
        ⟨if s.recording then [DsWriterCommand.ABORT] else [],
         if s.recording then [abort_wav_path] else [],
         [RobotCommand.Reset], []⟩ := by
  cases hrec : s.recording with
  | false => simp [step, hb, hBf, hAf, hS, humi, hrec, TickOutput.empty]
  | true => simp [step, hb, hBf, hAf, hS, humi, hrec, TickOutput.empty]

theorem step_eq_quiet (mg : EpisodeMeta) (s : LoopState) (inp : TickInput)
    (raw : RawButtons) (hb : inp.buttons = some raw)
    (hBf : (_parse_buttons raw s.button_handler).just_pressed rightB = false)
    (hAf : (_parse_buttons raw s.button_handler).just_pressed rightA = false)
    (hSf : ((_parse_buttons raw s.button_handler).just_pressed rightStick
        && !s.tracker.umi_mode) = false) :
    step mg s inp =
      finishTick s.tracker (_parse_buttons raw s.button_handler)
        s.recording inp TickOutput.empty := by
  simp [step, hb, hBf, hAf, hSf]

theorem finishTick_robot_mem (t : _Tracker) (bh : ButtonHandler) (r : Bool)
    (inp : TickInput) (out : TickOutput) (c : RobotCommand)
    (h : c ∈ out.robot_commands) :
    c ∈ (finishTick t bh r inp out).2.robot_commands := by
  unfold finishTick
  cases inp.controller_right with
  | none => simpa using h
  | some cp =>
    dsimp only
    split
    · exact List.mem_append_left _ h
    · simpa using h

theorem finishTick_reset_not_mem (t : _Tracker) (bh : ButtonHandler) (r : Bool)
    (inp : TickInput) (out : TickOutput)
    (h : RobotCommand.Reset ∉ out.robot_commands) :
    RobotCommand.Reset ∉ (finishTick t bh r inp out).2.robot_commands := by
  unfold finishTick
  cases inp.controller_right with
  | none => simpa using h
  | some cp =>
    dsimp only
    split
    · intro hmem
      rcases List.mem_append.mp hmem with h1 | h2
      · exact h h1
      · simp at h2
    · simpa using h

def rbBothW : RawButtons := ⟨none, some [0, 0, 0, 0, 1, 1]⟩

def tickBothW : TickInput := ⟨some rbBothW, some PW, none⟩

/-- C3 counterexample: on a tick where both the record-toggle edge and
the tracking-toggle edge fire, with the tracker disengaged and the
robot pose available, only the record action is performed — the tracker
stays disengaged — so it is not the case that every fired edge's action
is performed. -/
theorem loop_every_edge_counterexample :
    ((_parse_buttons rbBothW s0W.button_handler).just_pressed rightB = true ∧
      (_parse_buttons rbBothW s0W.button_handler).just_pressed rightA = true ∧
      s0W.tracker.on' = false ∧ tickBothW.robot_ee_pose = some PW ∧
      (step [] s0W tickBothW).2.ds_agent_commands =
        [⟨DsWriterCommandType.START_EPISODE, ([] : EpisodeMeta)⟩] ∧
      (step [] s0W tickBothW).1.tracker.on' = false) := by
  exact ⟨by decide, by decide, rfl, rfl, by decide, by decide⟩

/-- C3 (amended): the three edges are evaluated in a mutually exclusive
priority chain — record toggle first, then tracking toggle, then reset —
so at most one edge's action is performed per tick; on a tick where
several edges fire, the first one in that order wins and the actions of
the others are suppressed. -/
theorem loop_edge_priority (mg : EpisodeMeta) (s : LoopState) (inp : TickInput)
    (raw : RawButtons) (bh : ButtonHandler) (hb : inp.buttons = some raw)
    (hbh : bh = _parse_buttons raw s.button_handler) :
    ((bh.just_pressed rightB = true →
        (step mg s inp).1.recording = !s.recording ∧
        (step mg s inp).2.ds_agent_commands ≠ [] ∧
        (step mg s inp).1.tracker.on' = s.tracker.on' ∧
        RobotCommand.Reset ∉ (step mg s inp).2.robot_commands) ∧
      (bh.just_pressed rightB = false → bh.just_pressed rightA = true →
        s.tracker.umi_mode = false →
        (step mg s inp).2.ds_agent_commands = [] ∧
        (step mg s inp).1.recording = s.recording ∧
        (s.tracker.on' = true → (step mg s inp).1.tracker.on' = false) ∧
        (∀ ee, s.tracker.on' = false → inp.robot_ee_pose = some ee →
          (step mg s inp).1.tracker.on' = true ∧
          (step mg s inp).1.tracker._offset = (s.tracker.turn_on ee)._offset)) ∧
      (bh.just_pressed rightB = false → bh.just_pressed rightA = false →
        bh.just_pressed rightStick = true → s.tracker.umi_mode = false →
        RobotCommand.Reset ∈ (step mg s inp).2.robot_commands ∧
        (step mg s inp).1.recording = false ∧
        (step mg s inp).1.tracker.on' = false)) := by
  subst hbh
  refine ⟨fun hB => ?_, fun hBf hA humi => ?_, fun hBf hAf hS humi => ?_⟩
  · rw [step_eq_B mg s inp raw hb hB]
    refine ⟨finishTick_recording _ _ _ _ _, ?_, finishTick_tracker_on _ _ _ _ _,
      finishTick_reset_not_mem _ _ _ _ _ (by simp)⟩
    rw [finishTick_ds]
    simp
  · refine ⟨?_, ?_, fun hon => ?_, fun ee hon hre => ?_⟩
    · cases hon : s.tracker.on' with
      | true =>
        rw [step_eq_A_on mg s inp raw hb hBf hA hon, finishTick_ds]
        rfl
      | false =>
        cases hre : inp.robot_ee_pose with
        | none =>
          rw [step_eq_A_exc mg s inp raw hb hBf hA hon hre]
          rfl
        | some ee =>
          rw [step_eq_A_off mg s inp raw ee hb hBf hA hon hre, finishTick_ds]
          rfl
    · cases hon : s.tracker.on' with
      | true =>
        rw [step_eq_A_on mg s inp raw hb hBf hA hon, finishTick_recording]
      | false =>
        cases hre : inp.robot_ee_pose with
        | none => rw [step_eq_A_exc mg s inp raw hb hBf hA hon hre]
        | some ee => rw [step_eq_A_off mg s inp raw ee hb hBf hA hon hre, finishTick_recording]
    · rw [step_eq_A_on mg s inp raw hb hBf hA hon, finishTick_tracker_on]
      exact turn_off_on _ humi
    · rw [step_eq_A_off mg s inp raw ee hb hBf hA hon hre, finishTick_tracker_on,
        finishTick_tracker_offset]
      exact ⟨turn_on_on _ _ humi, rfl⟩
  · rw [step_eq_stick mg s inp raw hb hBf hAf hS humi]
    refine ⟨finishTick_robot_mem _ _ _ _ _ _ (by simp), finishTick_recording _ _ _ _ _, ?_⟩
    rw [finishTick_tracker_on]
    exact turn_off_on _ humi

/-- Witness for the amended C3: on the simultaneous-edges tick, the
record-toggle branch runs (highest priority) while the tracking state is
untouched and no reset command is emitted. -/
theorem loop_edge_priority_witness :
    ((step [] s0W tickBothW).1.recording = !s0W.recording ∧
      (step [] s0W tickBothW).2.ds_agent_commands ≠ [] ∧
      (step [] s0W tickBothW).1.tracker.on' = s0W.tracker.on' ∧
      RobotCommand.Reset ∉ (step [] s0W tickBothW).2.robot_commands) :=
  (loop_edge_priority [] s0W tickBothW rbBothW
    (_parse_buttons rbBothW s0W.button_handler) rfl rfl).1 (by decide)

theorem update_teleop (t : _Tracker) (opPos cp : Transform3D)
    (hop : t.operator_position = some opPos) :
    (t.update cp).1._teleop_t = opPos * cp * opPos.inv := by
  obtain ⟨o, b, off, tel⟩ := t
  simp only at hop
  subst hop
  rfl

theorem finishTick_tracker_some (t : _Tracker) (bh : ButtonHandler) (r : Bool)
    (inp : TickInput) (out : TickOutput) (cp : Transform3D)
    (hc : inp.controller_right = some cp) :
    (finishTick t bh r inp out).1.tracker = (t.update cp).1 := by
  unfold finishTick
  rw [hc]

/-- On any tick, a `CartesianPosition` robot command is emitted only
when the tracker ends the tick engaged. -/
theorem step_cart_engaged (mg : EpisodeMeta) (s : LoopState) (inp : TickInput)
    (p : Transform3D)
    (h : RobotCommand.CartesianPosition p ∈ (step mg s inp).2.robot_commands) :
    (step mg s inp).1.tracker.on' = true := by
  cases hbt : inp.buttons with
  | none => simp [step, hbt, TickOutput.empty] at h
  | some raw =>
    by_cases hB : (_parse_buttons raw s.button_handler).just_pressed rightB = true
    · rw [step_eq_B mg s inp raw hbt hB] at h ⊢
      rcases finishTick_cart_mem _ _ _ _ _ _ h with h1 | h2
      · simp at h1
      · rw [finishTick_tracker_on]
        exact h2
    · have hBf : (_parse_buttons raw s.button_handler).just_pressed rightB = false := by
        simpa using hB
      by_cases hA : (_parse_buttons raw s.button_handler).just_pressed rightA = true
      · cases hon : s.tracker.on' with
        | true =>
          rw [step_eq_A_on mg s inp raw hbt hBf hA hon] at h ⊢
          rcases finishTick_cart_mem _ _ _ _ _ _ h with h1 | h2
          · simp [TickOutput.empty] at h1
          · rw [finishTick_tracker_on]
            exact h2
        | false =>
          cases hre : inp.robot_ee_pose with
          | none =>
            rw [step_eq_A_exc mg s inp raw hbt hBf hA hon hre] at h
            simp [TickOutput.empty] at h
          | some ee =>
            rw [step_eq_A_off mg s inp raw ee hbt hBf hA hon hre] at h ⊢
            rcases finishTick_cart_mem _ _ _ _ _ _ h with h1 | h2
            · simp [TickOutput.empty] at h1
            · rw [finishTick_tracker_on]
              exact h2
      · have hAf : (_parse_buttons raw s.button_handler).just_pressed rightA = false := by
          simpa using hA
        cases hS : ((_parse_buttons raw s.button_handler).just_pressed rightStick
            && !s.tracker.umi_mode) with
        | true =>
          have hS1 : (_parse_buttons raw s.button_handler).just_pressed rightStick = true :=
            (Bool.and_eq_true _ _ |>.mp hS).1
          have hS2 : s.tracker.umi_mode = false := by
            have := (Bool.and_eq_true _ _ |>.mp hS).2
            simpa using this
          rw [step_eq_stick mg s inp raw hbt hBf hAf hS1 hS2] at h ⊢
          rcases finishTick_cart_mem _ _ _ _ _ _ h with h1 | h2
          · cases hrec : s.recording <;> simp [hrec] at h1
          · rw [finishTick_tracker_on]
            exact h2
        | false =>
          rw [step_eq_quiet mg s inp raw hbt hBf hAf hS] at h ⊢
          rcases finishTick_cart_mem _ _ _ _ _ _ h with h1 | h2
          · simp [TickOutput.empty] at h1
          · rw [finishTick_tracker_on]
            exact h2

/-- C7: on a tick with a fresh controller pose, no edges firing, and the
tracker disengaged in non-passthrough mode, the target pose is still
computed — the tracker's last mapped pose is refreshed to
`operator_position * pose * operator_position.inv` — but no
`CartesianPosition` robot command is emitted; and on any tick at all, a
`CartesianPosition` command is emitted only when the tracker is
engaged. -/
theorem loop_disengaged_no_command (mg : EpisodeMeta) (s : LoopState)
    (inp : TickInput) (raw : RawButtons) (opPos cp : Transform3D)
    (hb : inp.buttons = some raw)
    (hop : s.tracker.operator_position = some opPos)
    (hBf : (_parse_buttons raw s.button_handler).just_pressed rightB = false)
    (hAf : (_parse_buttons raw s.button_handler).just_pressed rightA = false)
    (hSf : (_parse_buttons raw s.button_handler).just_pressed rightStick = false)
    (hoff : s.tracker.on' = false)
    (hcp : inp.controller_right = some cp) :
    (((step mg s inp).1.tracker._teleop_t = opPos * cp * opPos.inv ∧
       ∀ p, RobotCommand.CartesianPosition p ∉ (step mg s inp).2.robot_commands) ∧
      ∀ (s2 : LoopState) (inp2 : TickInput) (p : Transform3D),
        RobotCommand.CartesianPosition p ∈ (step mg s2 inp2).2.robot_commands →
        (step mg s2 inp2).1.tracker.on' = true) := by
  have hS2 : ((_parse_buttons raw s.button_handler).just_pressed rightStick
      && !s.tracker.umi_mode) = false := by
    rw [hSf]
    rfl
  refine ⟨⟨?_, ?_⟩, fun s2 inp2 p hmem => step_cart_engaged mg s2 inp2 p hmem⟩
  · rw [step_eq_quiet mg s inp raw hb hBf hAf hS2,
      finishTick_tracker_some _ _ _ _ _ cp hcp]
    exact update_teleop s.tracker opPos cp hop
  · intro p
    rw [step_eq_quiet mg s inp raw hb hBf hAf hS2,
      finishTick_robot_of_not_on _ _ _ _ _ hoff]
    simp [TickOutput.empty]

def rbQuietW : RawButtons := ⟨none, some [0, 0, 0, 0, 0, 0]⟩

def tickQuietW : TickInput := ⟨some rbQuietW, none, some cW⟩

/-- Witness for C7 at a concrete quiet tick with a fresh pose. -/
theorem loop_disengaged_no_command_witness :
    (((step [] s0W tickQuietW).1.tracker._teleop_t = opW * cW * opW.inv ∧
       ∀ p, RobotCommand.CartesianPosition p ∉ (step [] s0W tickQuietW).2.robot_commands) ∧
      ∀ (s2 : LoopState) (inp2 : TickInput) (p : Transform3D),
        RobotCommand.CartesianPosition p ∈ (step [] s2 inp2).2.robot_commands →
        (step [] s2 inp2).1.tracker.on' = true) :=
  loop_disengaged_no_command [] s0W tickQuietW rbQuietW opW cW rfl rfl
    (by decide) (by decide) (by decide) rfl rfl

/-! ## Episode bracketing of the recorder-command trace -/

/-- Scanner for the recorder-command word: tracks whether an episode is
open. `START_EPISODE` is legal only when closed, `STOP_EPISODE` and
`ABORT` only when open; an illegal word scans to `none`. -/
def scanOpen : Bool → List DsWriterCommandType → Option Bool
  | b, [] => some b
  | false, DsWriterCommandType.START_EPISODE :: rest => scanOpen true rest
  | true, DsWriterCommandType.STOP_EPISODE :: rest => scanOpen false rest
  | true, DsWriterCommandType.ABORT :: rest => scanOpen false rest
  | _, _ :: _ => none

theorem scanOpen_append (ys : List DsWriterCommandType) :
    ∀ (xs : List DsWriterCommandType) (b : Bool),
      scanOpen b (xs ++ ys) =
        match scanOpen b xs with
        | some b2 => scanOpen b2 ys
        | none => none := by
  intro xs
  induction xs with
  | nil => intro b; cases b <;> rfl
  | cons op rest ih =>
    intro b
    cases b <;> cases op <;> simp [scanOpen, ih]

/-- Each tick's recorder emissions are legal from the tick's starting
`recording` flag, and leave the scanner in the tick's final flag. -/
theorem step_scan (mg : EpisodeMeta) (s : LoopState) (inp : TickInput) :
    scanOpen s.recording
        ((step mg s inp).2.ds_agent_commands.map DsWriterCommand.op) =
      some (step mg s inp).1.recording := by
  cases hbt : inp.buttons with
  | none => simp [step, hbt, TickOutput.empty, scanOpen]
  | some raw =>
    by_cases hB : (_parse_buttons raw s.button_handler).just_pressed rightB = true
    · rw [step_eq_B mg s inp raw hbt hB, finishTick_ds, finishTick_recording]
      cases hrec : s.recording <;> simp [scanOpen]
    · have hBf : (_parse_buttons raw s.button_handler).just_pressed rightB = false := by
        simpa using hB
      by_cases hA : (_parse_buttons raw s.button_handler).just_pressed rightA = true
      · cases hon : s.tracker.on' with
        | true =>
          rw [step_eq_A_on mg s inp raw hbt hBf hA hon, finishTick_ds,
            finishTick_recording]
          simp [TickOutput.empty, scanOpen]
        | false =>
          cases hre : inp.robot_ee_pose with
          | none =>
            rw [step_eq_A_exc mg s inp raw hbt hBf hA hon hre]
            simp [TickOutput.empty, scanOpen]
          | some ee =>
            rw [step_eq_A_off mg s inp raw ee hbt hBf hA hon hre, finishTick_ds,
              finishTick_recording]
            simp [TickOutput.empty, scanOpen]
      · have hAf : (_parse_buttons raw s.button_handler).just_pressed rightA = false := by
          simpa using hA
        cases hS : ((_parse_buttons raw s.button_handler).just_pressed rightStick
            && !s.tracker.umi_mode) with
        | true =>
          have hS1 : (_parse_buttons raw s.button_handler).just_pressed rightStick = true :=
            (Bool.and_eq_true _ _ |>.mp hS).1
          have hS2 : s.tracker.umi_mode = false := by
            have := (Bool.and_eq_true _ _ |>.mp hS).2
            simpa using this
          rw [step_eq_stick mg s inp raw hbt hBf hAf hS1 hS2, finishTick_ds,
            finishTick_recording]
          cases hrec : s.recording <;> simp [scanOpen, DsWriterCommand.ABORT]
        | false =>
          rw [step_eq_quiet mg s inp raw hbt hBf hAf hS, finishTick_ds,
            finishTick_recording]
          simp [TickOutput.empty, scanOpen]

/-- Over any run, the accumulated recorder-command word is legal from
the starting `recording` flag and scans to the final one. -/
theorem runTicks_scan (mg : EpisodeMeta) :
    ∀ (l : List TickInput) (s : LoopState),
      scanOpen s.recording ((runTicks mg s l).2.map DsWriterCommand.op) =
        some (runTicks mg s l).1.recording := by
  intro l
  induction l with
  | nil => intro s; cases hr : s.recording <;> simp [runTicks, scanOpen, hr]
  | cons i rest ih =>
    intro s
    show scanOpen s.recording
        (((step mg s i).2.ds_agent_commands ++
          (runTicks mg (step mg s i).1 rest).2).map DsWriterCommand.op) =
      some (runTicks mg (step mg s i).1 rest).1.recording
    rw [List.map_append, scanOpen_append, step_scan]
    exact ih (step mg s i).1

theorem scanOpen_closed_no_stop :
    ∀ (mid rest : List DsWriterCommandType) (b : Bool),
      scanOpen false (mid ++ DsWriterCommandType.STOP_EPISODE :: rest) = some b →
      DsWriterCommandType.START_EPISODE ∈ mid := by
  intro mid
  induction mid with
  | nil =>
    intro rest b h
    simp [scanOpen] at h
  | cons op mid2 ih =>
    intro rest b h
    cases op with
    | START_EPISODE => exact List.mem_cons_self _ _
    | STOP_EPISODE => simp [scanOpen] at h
    | ABORT => simp [scanOpen] at h

def s1W : LoopState := ⟨tW.turn_on PW, ButtonHandler.initState, true⟩

def rbStickBW : RawButtons := ⟨none, some [0, 0, 0, 1, 0, 1]⟩

def tickStickBW : TickInput := ⟨some rbStickBW, none, none⟩

def rbStickW : RawButtons := ⟨none, some [0, 0, 0, 1, 0, 0]⟩

def tickStickW : TickInput := ⟨some rbStickW, none, none⟩

/-- C4 counterexample: on a tick where the reset edge fires outside
passthrough mode while recording, but the record-toggle edge fires on
the same tick, no `Abort` and no `Reset` are emitted and the tracker
stays engaged — the reset actions are not performed "in all cases". -/
theorem loop_reset_suppressed_counterexample :
    ((_parse_buttons rbStickBW s1W.button_handler).just_pressed rightStick = true ∧
      s1W.tracker.umi_mode = false ∧ s1W.recording = true ∧
      RobotCommand.Reset ∉ (step [] s1W tickStickBW).2.robot_commands ∧
      DsWriterCommand.ABORT ∉ (step [] s1W tickStickBW).2.ds_agent_commands ∧
      (step [] s1W tickStickBW).1.tracker.on' = true) := by
  exact ⟨by decide, by decide, rfl, by decide, by decide, by decide⟩

/-- C4 (amended): on a tick where the reset edge fires outside
passthrough mode and neither the record-toggle nor the tracking-toggle
edge fires: if recording, an `ABORT` command is emitted and the
"aborted" cue is triggered; in all such cases the recording state
becomes idle, the tracker is disengaged, and a robot `Reset` command is
emitted. Moreover, over any run from the loop's initial state, the
recorder-command trace never contains a `STOP_EPISODE` after an `ABORT`
without a new `START_EPISODE` in between — an aborted episode never
receives a stop. -/
theorem loop_reset_edge (mg : EpisodeMeta) (s : LoopState) (inp : TickInput)
    (raw : RawButtons) (hb : inp.buttons = some raw)
    (hBf : (_parse_buttons raw s.button_handler).just_pressed rightB = false)
    (hAf : (_parse_buttons raw s.button_handler).just_pressed rightA = false)
    (hS : (_parse_buttons raw s.button_handler).just_pressed rightStick = true)
    (humi : s.tracker.umi_mode = false) :
    (((s.recording = true →
        DsWriterCommand.ABORT ∈ (step mg s inp).2.ds_agent_commands ∧
        abort_wav_path ∈ (step mg s inp).2.sound) ∧
      (step mg s inp).1.recording = false ∧
      (step mg s inp).1.tracker.on' = false ∧
      RobotCommand.Reset ∈ (step mg s inp).2.robot_commands) ∧
      ∀ (opp : Option Transform3D) (ticks : List TickInput)
        (pre mid rest : List DsWriterCommandType),
        (runTicks mg (LoopState.init opp) ticks).2.map DsWriterCommand.op =
          pre ++ DsWriterCommandType.ABORT ::
            (mid ++ DsWriterCommandType.STOP_EPISODE :: rest) →
        DsWriterCommandType.START_EPISODE ∈ mid) := by
  constructor
  · rw [step_eq_stick mg s inp raw hb hBf hAf hS humi]
    refine ⟨fun hrec => ?_, finishTick_recording _ _ _ _ _, ?_,
      finishTick_robot_mem _ _ _ _ _ _ (by simp)⟩
    · rw [finishTick_ds, finishTick_sound]
      simp [hrec]
    · rw [finishTick_tracker_on]
      exact turn_off_on _ humi
  · intro opp ticks pre mid rest htrace
    have hscan := runTicks_scan mg ticks (LoopState.init opp)
    have hinit : (LoopState.init opp).recording = false := rfl
    rw [hinit, htrace, scanOpen_append] at hscan
    cases hpre : scanOpen false pre with
    | none => rw [hpre] at hscan; simp at hscan
    | some b1 =>
      rw [hpre] at hscan
      cases b1 with
      | false => simp [scanOpen] at hscan
      | true =>
        have hscan2 : scanOpen false (mid ++ DsWriterCommandType.STOP_EPISODE :: rest) =
            some (runTicks mg (LoopState.init opp) ticks).1.recording := hscan
        exact scanOpen_closed_no_stop mid rest _ hscan2

/-- Witness for the amended C4 on a concrete reset-only tick while
recording with an engaged, non-passthrough tracker. -/
theorem loop_reset_edge_witness :
    (((s1W.recording = true →
        DsWriterCommand.ABORT ∈ (step [] s1W tickStickW).2.ds_agent_commands ∧
        abort_wav_path ∈ (step [] s1W tickStickW).2.sound) ∧
      (step [] s1W tickStickW).1.recording = false ∧
      (step [] s1W tickStickW).1.tracker.on' = false ∧
      RobotCommand.Reset ∈ (step [] s1W tickStickW).2.robot_commands) ∧
      ∀ (opp : Option Transform3D) (ticks : List TickInput)
        (pre mid rest : List DsWriterCommandType),
        (runTicks [] (LoopState.init opp) ticks).2.map DsWriterCommand.op =
          pre ++ DsWriterCommandType.ABORT ::
            (mid ++ DsWriterCommandType.STOP_EPISODE :: rest) →
        DsWriterCommandType.START_EPISODE ∈ mid) :=
  loop_reset_edge [] s1W tickStickW rbStickW rfl (by decide) (by decide)
    (by decide) (by decide)

/-! ## Camera wiring (`wire` in `wire.py`, lines 46–65) -/

/-- A signal receiver port; `fake` mirrors `isinstance(r, pimm.FakeReceiver)`. -/
structure Receiver where
  tag : String
  fake : Bool
deriving DecidableEq, Repr

/-- A built connection: unicast (one receiver) or broadcast (several). -/
inductive CameraConnection where
  | unicast (r : Receiver)
  | broadcast (rs : List Receiver)
deriving DecidableEq, Repr

def optReceiver : Option Receiver → List Receiver
  | some r => [r]
  | none => []

def noReceiversMsg : String := "No receivers have been specified for data collection."

/-- The per-camera-signal connection step of `wire`: collect the
policy's frame receiver, the writer agent's input when present, and the
GUI's camera input when present; filter out fake receivers; then with
more than one receiver make a broadcast connection, with exactly one a
unicast connection to `receivers[0]`, and with none raise `ValueError`
at graph-build time. -/
def connectCamera (policyFrame : Receiver) (dsInput guiCam : Option Receiver) :
    Except String CameraConnection :=
  let receivers :=
    ([policyFrame] ++ optReceiver dsInput ++ optReceiver guiCam).filter
      (fun r => !r.fake)
  if h1 : 1 < receivers.length then
    Except.ok (CameraConnection.broadcast receivers)
  else if h2 : receivers.length = 1 then
    Except.ok (CameraConnection.unicast (receivers.get ⟨0, by omega⟩))
  else Except.error noReceiversMsg

theorem get_zero_of_singleton {A : Type} (l : List A) (r : A) (h : l = [r])
    (hl : 0 < l.length) : l.get ⟨0, hl⟩ = r := by
  subst h
  rfl

/-- C9: for a camera signal, if filtering out fake receivers leaves no
receiver, wiring fails at graph-build time with the `ValueError`
message rather than silently dropping the signal; one remaining
receiver yields a unicast connection; several yield a broadcast
connection carrying exactly the filtered receiver list. -/
theorem wire_camera_connection (policyFrame : Receiver)
    (dsInput guiCam : Option Receiver) :
    ((([policyFrame] ++ optReceiver dsInput ++ optReceiver guiCam).filter
          (fun r => !r.fake) = [] →
        connectCamera policyFrame dsInput guiCam = Except.error noReceiversMsg) ∧
      (∀ r, ([policyFrame] ++ optReceiver dsInput ++ optReceiver guiCam).filter
          (fun r => !r.fake) = [r] →
        connectCamera policyFrame dsInput guiCam =
          Except.ok (CameraConnection.unicast r)) ∧
      (1 < (([policyFrame] ++ optReceiver dsInput ++ optReceiver guiCam).filter
          (fun r => !r.fake)).length →
        connectCamera policyFrame dsInput guiCam =
          Except.ok (CameraConnection.broadcast
            (([policyFrame] ++ optReceiver dsInput ++ optReceiver guiCam).filter
              (fun r => !r.fake))))) := by
  refine ⟨fun hempty => ?_, fun r hone => ?_, fun hmany => ?_⟩
  · simp only [connectCamera]
    split
    · rename_i h1
      rw [hempty] at h1
      simp at h1
    · split
      · rename_i h2
        rw [hempty] at h2
        simp at h2
      · rfl
  · simp only [connectCamera]
    split
    · rename_i h1
      rw [hone] at h1
      simp at h1
    · split
      · exact congrArg (fun x => Except.ok (CameraConnection.unicast x))
          (get_zero_of_singleton _ r hone (by rw [hone]; simp))
      · rename_i h2
        rw [hone] at h2
        simp at h2
  · simp only [connectCamera]
    split
    · rfl
    · rename_i h1
      exact absurd hmany h1

/-- Witness for C9: with a fake policy receiver and no writer or GUI,
the connection step fails with the build-time error; with a real writer
input added, it becomes a unicast connection to it. -/
theorem wire_camera_connection_witness :
    ((connectCamera ⟨ "frames", true⟩ none none = Except.error noReceiversMsg) ∧
      (connectCamera ⟨ "frames", true⟩ (some ⟨ "ds", false⟩) none =
        Except.ok (CameraConnection.unicast ⟨ "ds", false⟩))) :=
  ⟨(wire_camera_connection ⟨ "frames", true⟩ none none).1 (by decide),
   (wire_camera_connection ⟨ "frames", true⟩ (some ⟨ "ds", false⟩) none).2.1
     ⟨ "ds", false⟩ (by decide)⟩
